import Mathlib

/-!
Verification development for the journal extension command layer
(src/ext/commands.ts), centred on the duration engine
`computeAndPrintDuration` and the cancellation handling of the
`processInput` / `showNote` / `showEntry` pipelines.

Modelling conventions:
* A moment.js value produced by parsing a time word is either a valid
  clock time (measured in minutes from midnight of the reference day;
  hour 24 with minute 0 is accepted by the moment overflow check and
  denotes minute 1440) or an invalid moment.
* The editor `getWordRangeAtPosition` + `getText` pair is modelled as
  an oracle `doc : Nat -> Option String`: at a cursor position it yields
  the surrounding word matching the time regex, or `none` when no range
  is found.  Selections are the cursor positions themselves.
* The caller-supplied canonical time format (`ctrl.config.getTimeString()`)
  is modelled as an abstract parse function `tpl : String -> Moment`.
* Promise rejection / `throw` is modelled with `Except String`, carrying
  the exact message strings of the source.
-/

/-- A moment.js instance obtained from parsing: either a valid time of
day in minutes from midnight, or an invalid moment. -/
inductive Moment where
  | valid (minutes : Nat)
  | invalid
deriving DecidableEq, Repr

/-- Model of `moment.isValid()`. -/
def momentIsValid : Moment → Bool
  | .valid _ => true
  | .invalid => false

/-- Model of `a.isAfter(b)` for moments on the same reference day: true exactly
when both are valid and `a` is strictly later; any comparison involving
an invalid moment is false. -/
def momentIsAfter : Moment → Moment → Bool
  | .valid a, .valid b => decide (b < a)
  | _, _ => false

/-- Numeric value of a list of decimal digit characters. -/
def digitsVal (cs : List Char) : Nat :=
  cs.foldl (fun a c => a * 10 + (c.toNat - '0'.toNat)) 0

/-- First match of the moment `hmm` token regex (3 or 4 consecutive
digits, greedy) inside a character list, as in JavaScript
`string.match(/\d\d\d\d?/)`. -/
def grabHmm : List Char → Option (List Char)
  | c1 :: c2 :: c3 :: rest =>
    if c1.isDigit && c2.isDigit && c3.isDigit then
      match rest with
      | c4 :: _ => if c4.isDigit then some [c1, c2, c3, c4] else some [c1, c2, c3]
      | [] => some [c1, c2, c3]
    else grabHmm (c2 :: c3 :: rest)
  | _ => none

/-- Model of `moment(text, "hmm")`: the `hmm` parse token consumes 3–4 glued
digits, the last two being the minutes.  With no match the moment is
empty, hence invalid; an hour above 24, hour 24 with nonzero minutes, or
minutes above 59 overflow, hence invalid. -/
def momentHmm (text : String) : Moment :=
  match grabHmm text.data with
  | none => .invalid
  | some ds =>
    let pos := ds.length - 2
    let h := digitsVal (ds.take pos)
    let m := digitsVal (ds.drop pos)
    if h > 24 || (h == 24 && m != 0) || m > 59 then .invalid
    else .valid (h * 60 + m)

/-- Lines 163–167 of commands.ts: `time = moment(text, tpl); if
(!time.isValid()) { time = moment(text, "hmm"); }`. -/
def twoStageParse (tpl : String → Moment) (text : String) : Moment :=
  let time := tpl text
  if momentIsValid time then time else momentHmm text

/-- The mutable locals `start`, `end`, `target` of
`computeAndPrintDuration`, all initially undefined. -/
structure SelState where
  startM : Option Moment
  endM : Option Moment
  target : Option Nat
deriving DecidableEq, Repr

/-- Body of the `editor.selections.forEach` callback (lines 150–176):
a position with no word range becomes the target; otherwise the word is
parsed in two stages and merged into the provisional start/end pair. -/
def processSelection (tpl : String → Moment) (doc : Nat → Option String)
    (st : SelState) (pos : Nat) : SelState :=
  match doc pos with
  | none => { st with target := some pos }
  | some text =>
    let time := twoStageParse tpl text
    match st.startM with
    | none => { st with startM := some time }
    | some s =>
      if momentIsAfter s time then
        { startM := some time, endM := some s, target := st.target }
      else
        { st with endM := some time }

/-- State of the three locals after the `forEach` over all selections. -/
def durState (tpl : String → Moment) (doc : Nat → Option String)
    (sels : List Nat) : SelState :=
  sels.foldl (processSelection tpl doc) ⟨none, none, none⟩

/-- Message of the error thrown when the selection count is not 3. -/
def msgInvalidCount : String :=
  "To compute the duration, you have to select the two times (or dates) in your text as well as the location where to print it. "

/-- Rejection message when no start time was assigned. -/
def msgMissingStart : String := "No valid start time selected"

/-- Rejection message when no end time was assigned. -/
def msgMissingEnd : String := "No valid end time selected"

/-- Rejection message when no target position was assigned. -/
def msgMissingTarget : String :=
  "No valid target selected for printing the duration."

/-- The two fractional digits of a value given in hundredths: the
residue modulo 100 in decimal, left-padded to width two. -/
def fracPart (hundredths : Nat) : String :=
  (if hundredths % 100 < 10 then "0" else "") ++ Nat.repr (hundredths % 100)

/-- JavaScript `x.toFixed(2)` for a non-negative value given directly in
hundredths: integer part, a dot, then exactly two digits. -/
def toFixed2 (hundredths : Nat) : String :=
  Nat.repr (hundredths / 100) ++ "." ++ fracPart hundredths

/-- Lines 182–183: `moment.duration(start.diff(end))`, then
`Math.abs(duration.asHours()).toFixed(2)`.  For two valid times the
value in hours is `|a - b| / 60`; written in hundredths it is
`|a - b| * 5 / 3`, whose fractional part is 0, 1/3 or 2/3, so JavaScript
round-half-up to two decimals is exactly `(|a - b| * 5 + 1) / 3` in
natural division.  If either moment is invalid the difference is NaN and
`NaN.toFixed(2)` is the string `"NaN"`. -/
def formatDuration : Moment → Moment → String
  | .valid a, .valid b => toFixed2 ((((a : Int) - (b : Int)).natAbs * 5 + 1) / 3)
  | _, _ => "NaN"

/-- Core of `computeAndPrintDuration` (lines 130–200) up to its effect: the
selection-count guard throws, the three cardinality checks reject with
their distinct messages in order, and the success path yields the
formatted duration together with the target position handed to
`injectString`. -/
def computeAndPrintDuration (tpl : String → Moment) (doc : Nat → Option String)
    (sels : List Nat) : Except String (String × Nat) :=
  if sels.length ≠ 3 then .error msgInvalidCount
  else
    match (durState tpl doc sels).startM with
    | none => .error msgMissingStart
    | some s =>
      match (durState tpl doc sels).endM with
      | none => .error msgMissingEnd
      | some e =>
        match (durState tpl doc sels).target with
        | none => .error msgMissingTarget
        | some t => .ok (formatDuration s e, t)

/-- Observable effect of one run of the duration command: either exactly
one `injectString(document, formattedDuration, target)` call followed by
`resolve(null)`, or a rejection carrying the error. -/
inductive CommandEffect where
  | injected (text : String) (pos : Nat)
  | rejected (msg : String)
deriving DecidableEq, Repr

/-- The command wrapper around the computation: on success it performs
the single injection, on any failure it rejects and injects nothing. -/
def runDurationCommand (tpl : String → Moment) (doc : Nat → Option String)
    (sels : List Nat) : CommandEffect :=
  match computeAndPrintDuration tpl doc sels with
  | .ok (s, t) => .injected s t
  | .error e => .rejected e

/-- Number of `injectString` calls an effect performs. -/
def injectCount : CommandEffect → Nat
  | .injected _ _ => 1
  | .rejected _ => 0

/-- A canonical time format that parses none of the words it is given
(as the configured format `HH:mm` fails on glued words such as `930`). -/
def tplNever : String → Moment := fun _ => Moment.invalid

/-- A document oracle with no time-shaped word at any position. -/
def docNone : Nat → Option String := fun _ => none

/-- Document oracle for the NaN scenario: position 0 sits on a lone
space (matched by the `\s` alternative of the word regex, unparsable by
any time format), position 1 on the glued time `930`, position 2 on
plain prose with no regex match. -/
def docNanInput : Nat → Option String :=
  fun p => if p = 0 then some " " else if p = 1 then some "930" else none

/-- What a catch handler of the command layer does with the value the
pipeline failed with: whether the error-logging/error-display branch
ran, and what (if anything) was passed on to `deferred.reject`. -/
structure CatchBehavior where
  errorReported : Bool
  rejectedWith : Option String
deriving DecidableEq, Repr

/-- Catch handler of `processInput` (lines 61–67): log and reject only
when the reason is not the cancellation sentinel. -/
def processInputCatch (reason : String) : CatchBehavior :=
  if reason ≠ "cancel" then ⟨true, some reason⟩ else ⟨false, none⟩

/-- Catch handler of `showNote` (lines 232–238): log and display an
error message only when the reason is not the cancellation sentinel;
the rejection itself always propagates the reason. -/
def showNoteCatch (reason : String) : CatchBehavior :=
  if reason ≠ "cancel" then ⟨true, some reason⟩ else ⟨false, some reason⟩

/-- Catch handler of `showEntry` (lines 259–265): log to the console
only when the reason is not the cancellation sentinel; the rejection
always propagates the reason. -/
def showEntryCatch (reason : String) : CatchBehavior :=
  if reason ≠ "cancel" then ⟨true, some reason⟩ else ⟨false, some reason⟩

/-- The three-selection list with `x` placed at index `k` (0, 1 or
otherwise last) among `a` and `b`, used to quantify over the document
order of the selections. -/
def place (k x a b : Nat) : List Nat :=
  if k = 0 then [x, a, b] else if k = 1 then [a, x, b] else [a, b, x]

/-- Exactly two characters, both decimal digits. -/
def twoDigitChars : List Char → Bool
  | [t1, t2] => t1.isDigit && t2.isDigit
  | _ => false

/-- A string of the shape `digits.dd`: a nonempty all-digit integer
part, a dot, and exactly two digit characters — the shape of a
non-negative decimal rendered with exactly two fractional digits. -/
def isFixed2String (s : String) : Bool :=
  match s.data.reverse with
  | d1 :: d2 :: c :: rest =>
    d1.isDigit && d2.isDigit && (c == '.') && (!rest.isEmpty) && rest.all Char.isDigit
  | _ => false

/-- Document oracle with the glued times `1400` at position 0 and `930`
at position 1 and no time-shaped word elsewhere. -/
def docTwoTimes : Nat → Option String :=
  fun p => if p = 0 then some "1400" else if p = 1 then some "930" else none

/-- Document oracle with a single time-shaped word, at position 5. -/
def docOneTime : Nat → Option String :=
  fun p => if p = 5 then some "930" else none

/-- Variant of the NaN scenario with the candidates in the other order:
the parsable word `930` first, the doubly-unparsable lone space second. -/
def docNanLate : Nat → Option String :=
  fun p => if p = 0 then some "930" else if p = 1 then some " " else none

/-- Document oracle for the non-interference witness. -/
def docAgree1 : Nat → Option String :=
  fun p => if p = 0 then some "930" else if p = 1 then some "1400" else none

/-- Same words as `docAgree1` on positions 0–2 but different content at
position 99, away from every selection. -/
def docAgree2 : Nat → Option String :=
  fun p =>
    if p = 0 then some "930" else if p = 1 then some "1400"
    else if p = 99 then some "highly unrelated" else none

example : momentHmm "930" = .valid 570 := by decide
example : momentHmm "1223" = .valid 743 := by decide
example : momentHmm "1400" = .valid 840 := by decide
example : momentHmm " " = .invalid := by decide
example : momentHmm "14:00" = .invalid := by decide
example : toFixed2 450 = "4.50" := by decide
example : toFixed2 0 = "0.00" := by decide
example : formatDuration (.valid 570) (.valid 840) = "4.50" := by decide
example : formatDuration .invalid (.valid 570) = "NaN" := by decide

/-- Claim C3: whenever the number of selections differs from three, the
duration computation fails with the selection-count error and the
command injects nothing — no partial or best-effort result. -/
theorem invalidSelectionCount_rejects (tpl : String → Moment)
    (doc : Nat → Option String) (sels : List Nat) (h : sels.length ≠ 3) :
    computeAndPrintDuration tpl doc sels = .error msgInvalidCount ∧
    runDurationCommand tpl doc sels = .rejected msgInvalidCount ∧
    injectCount (runDurationCommand tpl doc sels) = 0 := by
  refine ⟨?_, ?_, ?_⟩ <;>
    simp [computeAndPrintDuration, runDurationCommand, injectCount, h]

/-- Claim C3 witness: two selections are rejected with the
selection-count error. -/
theorem invalidSelectionCount_rejects_witness :
    ([0, 1] : List Nat).length ≠ 3 ∧
    (computeAndPrintDuration tplNever docNone [0, 1] = .error msgInvalidCount ∧
     runDurationCommand tplNever docNone [0, 1] = .rejected msgInvalidCount ∧
     injectCount (runDurationCommand tplNever docNone [0, 1]) = 0) :=
  ⟨by decide, invalidSelectionCount_rejects tplNever docNone [0, 1] (by decide)⟩

/-- Claim C2, showing the code bug: a selection whose surrounding word
is a lone space matches the time-token grammar (the regex alternative
for whitespace) but fails both the canonical parse and the `hmm` retry;
the code does not fail — the invalid moment is silently assigned to
`start`, the computation succeeds, and the string `"NaN"` is injected at
the target. -/
theorem unparsable_candidate_injects_NaN :
    computeAndPrintDuration tplNever docNanInput [0, 1, 2] = .ok ("NaN", 2) ∧
    runDurationCommand tplNever docNanInput [0, 1, 2] = .injected "NaN" 2 ∧
    (durState tplNever docNanInput [0, 1, 2]).startM = some .invalid :=
  ⟨rfl, rfl, rfl⟩

/-- Claim C5: a time-candidate word is parsed with the caller-supplied
canonical format first; the glued-digits `hmm` format is consulted only
when that parse is invalid, and under it the word `930` (which the
canonical format cannot parse) resolves to the clock time 09:30. -/
theorem twoStageParse_order (tpl : String → Moment) (w : String) :
    (momentIsValid (tpl w) = true → twoStageParse tpl w = tpl w) ∧
    (momentIsValid (tpl w) = false → twoStageParse tpl w = momentHmm w) ∧
    (momentIsValid (tpl "930") = false →
      twoStageParse tpl "930" = .valid (9 * 60 + 30)) := by
  refine ⟨fun h => ?_, fun h => ?_, fun h => ?_⟩
  · simp [twoStageParse, h]
  · simp [twoStageParse, h]
  · have hr : twoStageParse tpl "930" = momentHmm "930" := by
      simp [twoStageParse, h]
    rw [hr]
    decide

/-- Claim C5 witness: with a canonical format that rejects `930`, the
two-stage parse yields 09:30 via the glued-digits retry. -/
theorem twoStageParse_order_witness :
    momentIsValid (tplNever "930") = false ∧
    twoStageParse tplNever "930" = .valid 570 :=
  ⟨rfl, (twoStageParse_order tplNever "930").2.2 rfl⟩

/-- Claim C6: after classification the computation checks start, end and
target in that order, and each missing component is reported with its
own distinct message, never a generic or merged failure. -/
theorem missing_component_errors (tpl : String → Moment)
    (doc : Nat → Option String) (sels : List Nat) (h3 : sels.length = 3) :
    ((durState tpl doc sels).startM = none →
      computeAndPrintDuration tpl doc sels = .error msgMissingStart) ∧
    (∀ s, (durState tpl doc sels).startM = some s →
      (durState tpl doc sels).endM = none →
      computeAndPrintDuration tpl doc sels = .error msgMissingEnd) ∧
    (∀ s e, (durState tpl doc sels).startM = some s →
      (durState tpl doc sels).endM = some e →
      (durState tpl doc sels).target = none →
      computeAndPrintDuration tpl doc sels = .error msgMissingTarget) ∧
    (msgMissingStart ≠ msgMissingEnd ∧ msgMissingStart ≠ msgMissingTarget ∧
      msgMissingEnd ≠ msgMissingTarget ∧ msgMissingStart ≠ msgInvalidCount ∧
      msgMissingEnd ≠ msgInvalidCount ∧ msgMissingTarget ≠ msgInvalidCount) := by
  refine ⟨fun hs => ?_, fun s hs he => ?_, fun s e hs he ht => ?_, by decide⟩ <;>
    simp_all [computeAndPrintDuration, h3]

/-- Claim C6 witness: three selections none of which carries a
time-shaped word leave `start` unset, and the computation reports
exactly the missing-start message. -/
theorem missing_component_errors_witness :
    ([0, 1, 2] : List Nat).length = 3 ∧
    (durState tplNever docNone [0, 1, 2]).startM = none ∧
    computeAndPrintDuration tplNever docNone [0, 1, 2] = .error msgMissingStart :=
  ⟨rfl, rfl, (missing_component_errors tplNever docNone [0, 1, 2] rfl).1 rfl⟩

/-- Claim C8: a pipeline of `processInput`, `showNote` or `showEntry`
that terminates with the reserved sentinel value `cancel` skips the
error-logging/error-display branch entirely; any other reason runs it.
Cancellation is thus never reported as a failure. -/
theorem cancel_sentinel_never_reported :
    (processInputCatch "cancel").errorReported = false ∧
    (processInputCatch "cancel").rejectedWith = none ∧
    (showNoteCatch "cancel").errorReported = false ∧
    (showEntryCatch "cancel").errorReported = false := by
  decide

/-- Claim C7: with two or more selections lacking a time-shaped word,
each non-matching selection overwrites `target` (the last one wins) and
the run fails through the cardinality check with a distinct message —
missing end for one lone candidate, missing start when no selection
parses — never a silent wrong answer. -/
theorem multiple_targets_fail (tpl : String → Moment)
    (doc : Nat → Option String) (k pc p1 p2 : Nat) (w : String)
    (hc : doc pc = some w) (h1 : doc p1 = none) (h2 : doc p2 = none) :
    computeAndPrintDuration tpl doc (place k pc p1 p2) = .error msgMissingEnd ∧
    (durState tpl doc (place k pc p1 p2)).target = some p2 ∧
    (∀ q1 q2 q3, doc q1 = none → doc q2 = none → doc q3 = none →
      computeAndPrintDuration tpl doc [q1, q2, q3] = .error msgMissingStart ∧
      (durState tpl doc [q1, q2, q3]).target = some q3) := by
  refine ⟨?_, ?_, fun q1 q2 q3 hq1 hq2 hq3 => ?_⟩
  · by_cases hk0 : k = 0
    · simp [place, hk0, computeAndPrintDuration, durState, processSelection,
        hc, h1, h2]
    · by_cases hk1 : k = 1 <;>
        simp [place, hk0, hk1, computeAndPrintDuration, durState,
          processSelection, hc, h1, h2]
  · by_cases hk0 : k = 0
    · simp [place, hk0, durState, processSelection, hc, h1, h2]
    · by_cases hk1 : k = 1 <;>
        simp [place, hk0, hk1, durState, processSelection, hc, h1, h2]
  · constructor <;>
      simp [computeAndPrintDuration, durState, processSelection, hq1, hq2, hq3]

/-- Claim C7 witness: one glued time at position 5 and blanks at 6 and 7
fail with the missing-end message, the target being the last blank; all
blanks fail with the missing-start message. -/
theorem multiple_targets_fail_witness :
    docOneTime 5 = some "930" ∧ docOneTime 6 = none ∧ docOneTime 7 = none ∧
    computeAndPrintDuration tplNever docOneTime (place 1 5 6 7) =
      .error msgMissingEnd ∧
    (durState tplNever docOneTime (place 1 5 6 7)).target = some 7 ∧
    computeAndPrintDuration tplNever docOneTime [6, 7, 8] =
      .error msgMissingStart := by
  have h := multiple_targets_fail tplNever docOneTime 1 5 6 7 "930" rfl rfl rfl
  exact ⟨rfl, rfl, rfl, h.1, h.2.1, (h.2.2 6 7 8 rfl rfl rfl).1⟩

/-- The selection fold only consults the document oracle at the selected
positions. -/
theorem foldl_processSelection_congr (tpl : String → Moment)
    (doc1 doc2 : Nat → Option String) :
    ∀ (sels : List Nat) (st : SelState), (∀ p ∈ sels, doc1 p = doc2 p) →
      sels.foldl (processSelection tpl doc1) st =
        sels.foldl (processSelection tpl doc2) st := by
  intro sels
  induction sels with
  | nil => intro st _; rfl
  | cons a t ih =>
    intro st h
    have hda : doc1 a = doc2 a := h a (List.mem_cons_self a t)
    have hstep : processSelection tpl doc1 st a = processSelection tpl doc2 st a := by
      simp [processSelection, hda]
    simp only [List.foldl_cons, hstep]
    exact ih _ (fun p hp => h p (List.mem_cons_of_mem a hp))

/-- Claim C9: the duration computation is a function of the supplied
selections, the words the document carries at them, and the time-format
hint alone — two documents agreeing at the selected positions produce
identical results and identical effects, so identical arguments produce
identical results, and the only write is the injection request the
wrapper hands to the external injector. -/
theorem duration_pure_in_inputs (tpl : String → Moment)
    (doc1 doc2 : Nat → Option String) (sels : List Nat)
    (h : ∀ p ∈ sels, doc1 p = doc2 p) :
    computeAndPrintDuration tpl doc1 sels = computeAndPrintDuration tpl doc2 sels ∧
    runDurationCommand tpl doc1 sels = runDurationCommand tpl doc2 sels := by
  have hd : durState tpl doc1 sels = durState tpl doc2 sels :=
    foldl_processSelection_congr tpl doc1 doc2 sels ⟨none, none, none⟩ h
  have hcompute :
      computeAndPrintDuration tpl doc1 sels = computeAndPrintDuration tpl doc2 sels := by
    simp [computeAndPrintDuration, hd]
  exact ⟨hcompute, by simp [runDurationCommand, hcompute]⟩

/-- Claim C9 witness: two documents equal at the three selections but
different at position 99 yield the same computation and effect. -/
theorem duration_pure_in_inputs_witness :
    (∀ p ∈ ([0, 1, 2] : List Nat), docAgree1 p = docAgree2 p) ∧
    docAgree1 99 ≠ docAgree2 99 ∧
    computeAndPrintDuration tplNever docAgree1 [0, 1, 2] =
      computeAndPrintDuration tplNever docAgree2 [0, 1, 2] ∧
    runDurationCommand tplNever docAgree1 [0, 1, 2] =
      runDurationCommand tplNever docAgree2 [0, 1, 2] := by
  have h := duration_pure_in_inputs tplNever docAgree1 docAgree2 [0, 1, 2]
    (by intro p hp; fin_cases hp <;> rfl)
  exact ⟨by intro p hp; fin_cases hp <;> rfl, by decide, h.1, h.2⟩

/-- Claim C10: the command injects into the document exactly once, on
the single success path, and injects nothing on any failing invocation —
wrong selection count, missing start, missing end or missing target all
surface as a rejection carrying the error, leaving the document
untouched. -/
theorem inject_only_on_success (tpl : String → Moment)
    (doc : Nat → Option String) (sels : List Nat) :
    (∀ e, computeAndPrintDuration tpl doc sels = .error e →
      runDurationCommand tpl doc sels = .rejected e ∧
      injectCount (runDurationCommand tpl doc sels) = 0) ∧
    (∀ s t, computeAndPrintDuration tpl doc sels = .ok (s, t) →
      runDurationCommand tpl doc sels = .injected s t ∧
      injectCount (runDurationCommand tpl doc sels) = 1) := by
  constructor
  · intro e he
    simp [runDurationCommand, injectCount, he]
  · intro s t hst
    simp [runDurationCommand, injectCount, hst]

/-- Claim C10 witness: a wrong-count invocation injects nothing; a fully
valid invocation injects its formatted duration exactly once. -/
theorem inject_only_on_success_witness :
    (runDurationCommand tplNever docNone [0, 1] = .rejected msgInvalidCount ∧
      injectCount (runDurationCommand tplNever docNone [0, 1]) = 0) ∧
    (runDurationCommand tplNever docTwoTimes [0, 1, 2] = .injected "4.50" 2 ∧
      injectCount (runDurationCommand tplNever docTwoTimes [0, 1, 2]) = 1) :=
  ⟨(inject_only_on_success tplNever docNone [0, 1]).1 msgInvalidCount rfl,
   (inject_only_on_success tplNever docTwoTimes [0, 1, 2]).2 "4.50" 2 rfl⟩

/-- Any placement of three selections has length three. -/
theorem place_length (k x a b : Nat) : (place k x a b).length = 3 := by
  unfold place
  split_ifs <;> rfl

/-- With one blank selection and two selections parsing to valid times,
the fold leaves the chronologically earlier time in `start`, the later
one in `end` and the blank position in `target`, wherever the blank sits
among the three. -/
theorem durState_two_times (tpl : String → Moment) (doc : Nat → Option String)
    (k t pa pb : Nat) (wa wb : String) (ma mb : Nat)
    (ht : doc t = none) (ha : doc pa = some wa) (hb : doc pb = some wb)
    (hpa : twoStageParse tpl wa = .valid ma)
    (hpb : twoStageParse tpl wb = .valid mb) :
    durState tpl doc (place k t pa pb) =
      ⟨some (.valid (min ma mb)), some (.valid (max ma mb)), some t⟩ := by
  rcases Nat.lt_or_ge mb ma with hlt | hge
  · have hd : momentIsAfter (Moment.valid ma) (Moment.valid mb) = true := by
      simp [momentIsAfter, hlt]
    by_cases hk0 : k = 0
    · simp [place, hk0, durState, processSelection, ht, ha, hb, hpa, hpb, hd,
        SelState.mk.injEq]
      omega
    · by_cases hk1 : k = 1 <;>
        simp [place, hk0, hk1, durState, processSelection, ht, ha, hb, hpa, hpb,
          hd, SelState.mk.injEq] <;>
        omega
  · have hd : momentIsAfter (Moment.valid ma) (Moment.valid mb) = false := by
      simp [momentIsAfter]
      omega
    by_cases hk0 : k = 0
    · simp [place, hk0, durState, processSelection, ht, ha, hb, hpa, hpb, hd,
        SelState.mk.injEq]
      omega
    · by_cases hk1 : k = 1 <;>
        simp [place, hk0, hk1, durState, processSelection, ht, ha, hb, hpa, hpb,
          hd, SelState.mk.injEq] <;>
        omega

/-- Claim C1: on a valid invocation — three selections, exactly two of
which parse as times — the computed pair satisfies start ≤ end, swapping
the document order of the two time selections yields the identical
(start, end) pair, and the formatted hours string (hence the whole
result) is byte-identical under the swap. -/
theorem duration_swap_invariant (tpl : String → Moment)
    (doc : Nat → Option String) (k t p1 p2 : Nat) (w1 w2 : String) (m1 m2 : Nat)
    (ht : doc t = none) (h1 : doc p1 = some w1) (h2 : doc p2 = some w2)
    (hp1 : twoStageParse tpl w1 = .valid m1)
    (hp2 : twoStageParse tpl w2 = .valid m2) :
    durState tpl doc (place k t p1 p2) =
      ⟨some (.valid (min m1 m2)), some (.valid (max m1 m2)), some t⟩ ∧
    durState tpl doc (place k t p2 p1) =
      ⟨some (.valid (min m1 m2)), some (.valid (max m1 m2)), some t⟩ ∧
    min m1 m2 ≤ max m1 m2 ∧
    computeAndPrintDuration tpl doc (place k t p1 p2) =
      .ok (formatDuration (.valid (min m1 m2)) (.valid (max m1 m2)), t) ∧
    computeAndPrintDuration tpl doc (place k t p1 p2) =
      computeAndPrintDuration tpl doc (place k t p2 p1) := by
  have hA := durState_two_times tpl doc k t p1 p2 w1 w2 m1 m2 ht h1 h2 hp1 hp2
  have hB := durState_two_times tpl doc k t p2 p1 w2 w1 m2 m1 ht h2 h1 hp2 hp1
  rw [Nat.min_comm m2 m1, Nat.max_comm m2 m1] at hB
  have hCA : computeAndPrintDuration tpl doc (place k t p1 p2) =
      .ok (formatDuration (.valid (min m1 m2)) (.valid (max m1 m2)), t) := by
    simp [computeAndPrintDuration, place_length, hA]
  have hCB : computeAndPrintDuration tpl doc (place k t p2 p1) =
      .ok (formatDuration (.valid (min m1 m2)) (.valid (max m1 m2)), t) := by
    simp [computeAndPrintDuration, place_length, hB]
  exact ⟨hA, hB, min_le_max, hCA, hCA.trans hCB.symm⟩

/-- Claim C1 witness: selecting 14:00 before 09:30 or 09:30 before
14:00 (blank selection last) gives the same pair 09:30–14:00 and the
same formatted result. -/
theorem duration_swap_invariant_witness :
    durState tplNever docTwoTimes (place 2 2 0 1) =
      ⟨some (.valid 570), some (.valid 840), some 2⟩ ∧
    computeAndPrintDuration tplNever docTwoTimes (place 2 2 0 1) =
      computeAndPrintDuration tplNever docTwoTimes (place 2 2 1 0) := by
  have h := duration_swap_invariant tplNever docTwoTimes 2 2 0 1 "1400" "930"
    840 570 rfl rfl rfl (by decide) (by decide)
  exact ⟨by simpa using h.1, h.2.2.2.2⟩

/-- The decimal digit characters produced by `Nat.digitChar` below ten
are genuine digits. -/
theorem digitChar_isDigit (m : Nat) (h : m < 10) :
    (Nat.digitChar m).isDigit = true := by
  interval_cases m <;> decide

/-- Every character `Nat.toDigitsCore` prepends in base ten is a digit. -/
theorem toDigitsCore_all_digit :
    ∀ (fuel n : Nat) (acc : List Char), acc.all Char.isDigit = true →
      (Nat.toDigitsCore 10 fuel n acc).all Char.isDigit = true := by
  intro fuel
  induction fuel with
  | zero => intro n acc h; simpa [Nat.toDigitsCore] using h
  | succ f ih =>
    intro n acc h
    have hmod : (Nat.digitChar (n % 10)).isDigit = true :=
      digitChar_isDigit (n % 10) (Nat.mod_lt n (by decide))
    simp only [Nat.toDigitsCore]
    by_cases h0 : n / 10 = 0
    · rw [if_pos h0]
      simp [hmod, h]
    · rw [if_neg h0]
      exact ih (n / 10) _ (by simp [hmod, h])

/-- `Nat.toDigitsCore` never discards its accumulator. -/
theorem toDigitsCore_ne_nil :
    ∀ (fuel n : Nat) (acc : List Char), acc ≠ [] →
      Nat.toDigitsCore 10 fuel n acc ≠ [] := by
  intro fuel
  induction fuel with
  | zero => intro n acc h; simpa [Nat.toDigitsCore] using h
  | succ f ih =>
    intro n acc h
    simp only [Nat.toDigitsCore]
    by_cases h0 : n / 10 = 0
    · rw [if_pos h0]; exact List.cons_ne_nil _ _
    · rw [if_neg h0]; exact ih (n / 10) _ (List.cons_ne_nil _ _)

/-- The decimal representation of a natural number is all digits. -/
theorem repr_all_digit (n : Nat) :
    (Nat.repr n).data.all Char.isDigit = true :=
  toDigitsCore_all_digit (n + 1) n [] rfl

/-- The decimal representation of a natural number is nonempty. -/
theorem repr_data_ne_nil (n : Nat) : (Nat.repr n).data ≠ [] := by
  show Nat.toDigitsCore 10 (n + 1) n [] ≠ []
  simp only [Nat.toDigitsCore]
  by_cases h0 : n / 10 = 0
  · rw [if_pos h0]; exact List.cons_ne_nil _ _
  · rw [if_neg h0]; exact toDigitsCore_ne_nil n (n / 10) _ (List.cons_ne_nil _ _)

/-- The padded fractional part always consists of exactly two digit
characters. -/
theorem fracPart_twoDigit (n : Nat) : twoDigitChars (fracPart n).data = true := by
  have hself : fracPart n = fracPart (n % 100) := by
    unfold fracPart
    have hmm : n % 100 % 100 = n % 100 := by omega
    rw [hmm]
  rw [hself]
  have H : ((List.range 100).all fun m => twoDigitChars (fracPart m).data) = true := by
    decide
  have hmem : n % 100 ∈ List.range 100 := List.mem_range.mpr (by omega)
  exact List.all_eq_true.mp H (n % 100) hmem

/-- Whatever the hundredths value, `toFixed2` renders a nonempty
all-digit integer part, a dot, and exactly two fractional digits. -/
theorem isFixed2String_toFixed2 (n : Nat) :
    isFixed2String (toFixed2 n) = true := by
  have htail := fracPart_twoDigit n
  rcases hcs : (fracPart n).data with _ | ⟨t1, _ | ⟨t2, _ | ⟨t3, r⟩⟩⟩
  · rw [hcs] at htail; simp [twoDigitChars] at htail
  · rw [hcs] at htail; simp [twoDigitChars] at htail
  case cons.cons.cons =>
    rw [hcs] at htail; simp [twoDigitChars] at htail
  case cons.cons.nil =>
    rw [hcs] at htail
    have hdig : t1.isDigit = true ∧ t2.isDigit = true := by
      simpa [twoDigitChars, Bool.and_eq_true] using htail
    have hdata : (toFixed2 n).data.reverse =
        t2 :: t1 :: '.' :: (Nat.repr (n / 100)).data.reverse := by
      simp [toFixed2, hcs]
    have hne : (Nat.repr (n / 100)).data.reverse ≠ [] := by
      intro hrev
      exact repr_data_ne_nil (n / 100) (by simpa using congrArg List.reverse hrev)
    simp only [isFixed2String, hdata]
    simp [hdig.1, hdig.2, List.isEmpty_iff, hne, List.all_reverse,
      repr_all_digit]

/-- Claim C4 counterexample: a successful duration computation whose
output is not a two-fractional-digit decimal.  With the parsable word
`930` first and a lone space (time-shaped but unparsable by both
strategies) second, the code resolves successfully and the output string
is `NaN`. -/
theorem duration_output_not_always_decimal :
    computeAndPrintDuration tplNever docNanLate [0, 1, 2] = .ok ("NaN", 2) ∧
    isFixed2String "NaN" = false :=
  ⟨rfl, rfl⟩

/-- Claim C4 as amended: for every successful duration computation whose
start and end both hold valid times, the output equals the absolute
difference between end and start in hours rounded to hundredths, is
rendered as a non-negative decimal with exactly two fractional digits,
and equal times render as `0.00`. -/
theorem duration_output_two_decimals (tpl : String → Moment)
    (doc : Nat → Option String) (sels : List Nat) (a b : Nat)
    (fd : String) (t : Nat)
    (hs : (durState tpl doc sels).startM = some (.valid a))
    (he : (durState tpl doc sels).endM = some (.valid b))
    (hc : computeAndPrintDuration tpl doc sels = .ok (fd, t)) :
    fd = toFixed2 ((((a : Int) - (b : Int)).natAbs * 5 + 1) / 3) ∧
    isFixed2String fd = true ∧
    (a = b → fd = "0.00") := by
  by_cases hl : sels.length = 3
  case neg =>
    simp [computeAndPrintDuration, hl] at hc
  case pos =>
    rcases htg : (durState tpl doc sels).target with _ | t'
    · simp [computeAndPrintDuration, hl, hs, he, htg] at hc
    · simp [computeAndPrintDuration, hl, hs, he, htg] at hc
      obtain ⟨hfd, -⟩ := hc
      refine ⟨hfd.symm, ?_, ?_⟩
      · rw [← hfd]
        exact isFixed2String_toFixed2 _
      · intro hab
        subst hab
        rw [← hfd]
        show toFixed2 ((((a : Int) - (a : Int)).natAbs * 5 + 1) / 3) = "0.00"
        rw [sub_self]
        decide

/-- Claim C4 amended witness: the successful 09:30–14:00 run outputs
4.50 hours, a well-formed two-fractional-digit decimal. -/
theorem duration_output_two_decimals_witness :
    (durState tplNever docTwoTimes [0, 1, 2]).startM = some (.valid 570) ∧
    (durState tplNever docTwoTimes [0, 1, 2]).endM = some (.valid 840) ∧
    computeAndPrintDuration tplNever docTwoTimes [0, 1, 2] = .ok ("4.50", 2) ∧
    "4.50" = toFixed2 ((((570 : Int) - (840 : Int)).natAbs * 5 + 1) / 3) ∧
    isFixed2String "4.50" = true := by
  have h := duration_output_two_decimals tplNever docTwoTimes [0, 1, 2] 570 840
    "4.50" 2 rfl rfl rfl
  exact ⟨rfl, rfl, rfl, h.1, h.2.1⟩
